import Mathlib

/-! Trace propagation in the opentracing/jaeger demo (`main.go`).

A shallow embedding of the four HTTP handlers of `main.go` and of the way they
use the tracer: which spans they start, with which references, which contexts
they inject into outbound requests, and when the spans are finished.

* A handler is a function from its inputs (the tracer's codec, the answers of
  the HTTP client, the random draws, the inbound request) to a `Run`: the
  sequence of events of the handler's goroutine in program order, the event
  sequences of the goroutines it starts, and whether it returned or the
  process was terminated by `log.Fatalf`.
* The tracer library and the HTTP transport are not part of `main.go`. The
  codec (`Inject`/`Extract`) and the HTTP client are parameters; `StartSpan`
  follows the description of the tracer in the specification.
-/

namespace TracingDemo

/-! ## Data model -/

/-- The carrier: the header set of an HTTP request (`http.Header`). -/
abbrev Header := List (String × String)

/-- The identity propagated across a call boundary (`opentracing.SpanContext`). -/
structure SpanContext where
  traceID : Nat
  spanID : Nat
  parentID : Option Nat
  baggage : List (String × String)
deriving DecidableEq, Repr

/-- The two relationship kinds (`opentracing.SpanReferenceType`). -/
inductive SpanReferenceType where
  | ChildOfRef
  | FollowsFromRef
deriving DecidableEq, Repr

/-- A relationship to another span (`opentracing.SpanReference`). -/
structure SpanReference where
  refType : SpanReferenceType
  referencedContext : SpanContext
deriving DecidableEq, Repr

/-- The reference built by `opentracing.ChildOf(sc)`. -/
def ChildOf (sc : SpanContext) : SpanReference := ⟨.ChildOfRef, sc⟩

/-- The reference built by `opentracing.FollowsFrom(sc)`. -/
def FollowsFrom (sc : SpanContext) : SpanReference := ⟨.FollowsFromRef, sc⟩

/-- A span as the handlers see it: its name, its own context and its references. -/
structure Span where
  operationName : String
  context : SpanContext
  references : List SpanReference
deriving DecidableEq, Repr

/-- The identifiers the tracer draws when a span is started. -/
structure FreshIDs where
  traceID : Nat
  spanID : Nat
deriving DecidableEq, Repr

/-- Modelled from the spec: `opentracing.StartSpan` belongs to the tracer library, which
is not part of `main.go`. Section 4.2: a new span gets a fresh span identifier; if a
relationship references an existing context the trace identifier is inherited from that
context, otherwise a fresh trace identifier is generated. The referenced span becomes the
parent and its baggage is propagated. -/
def StartSpan (operationName : String) (refs : List SpanReference) (fresh : FreshIDs) : Span :=
  match refs with
  | [] =>
    { operationName := operationName
      context := ⟨fresh.traceID, fresh.spanID, none, []⟩
      references := [] }
  | ref :: _ =>
    { operationName := operationName
      context := ⟨ref.referencedContext.traceID, fresh.spanID,
        some ref.referencedContext.spanID, ref.referencedContext.baggage⟩
      references := refs }

/-- The codec of the process-wide tracer (`opentracing.GlobalTracer()`, which is also
`sp.Tracer()`): `Inject` writes a context into a carrier and `Extract` reads one back;
each may fail with an error. The library is not part of `main.go`, so both are parameters;
the codec is taken to be a function of the context and the carrier it is given. -/
structure Tracer where
  Inject : SpanContext → Header → Except String Header
  Extract : Header → Except String SpanContext

/-- An HTTP request: method, URL path and headers. -/
structure Request where
  method : String
  path : String
  header : Header
deriving DecidableEq, Repr

/-- A call of `http.NewRequest(method, "http://localhost:8080" + path, nil)`: no headers yet. -/
def NewRequest (method path : String) : Request := ⟨method, path, []⟩

/-- What `httpClient.Do` hands back: a response (its body) or an error. -/
inductive CallResult where
  | response (body : String)
  | failure (err : String)
deriving DecidableEq, Repr

/-- The answers of the HTTP client, as the handler observes them. -/
abbrev Client := Request → CallResult

/-- The observable steps of a goroutine. -/
inductive Event where
  /-- A call of w.Write. -/
  | write (body : String)
  /-- A call of opentracing.StartSpan, with the span it returns. -/
  | startSpan (sp : Span)
  /-- A call of Inject with this context on the headers of this request. -/
  | inject (ctx : SpanContext) (req : Request)
  /-- The go statement: the background goroutine is dispatched. -/
  | go
  /-- A call of time.Sleep for this many milliseconds. -/
  | sleep (ms : Nat)
  /-- The call httpClient.Do(req) starts: the request is issued. -/
  | send (req : Request)
  /-- The call httpClient.Do(req) returns. -/
  | recv (req : Request) (res : CallResult)
  /-- A call of log.Printf. -/
  | logPrintf (msg : String)
  /-- A call of sp.LogEventWithPayload. -/
  | logEvent (sp : Span) (name : String) (payload : String)
  /-- The deferred sp.Finish runs: the span is handed to the reporter. -/
  | finish (sp : Span)
  /-- A call of log.Fatalf: the message is printed and the process exits at once. -/
  | fatal (msg : String)
deriving DecidableEq, Repr

/-- How the handler's goroutine ends: the function returns (its deferred calls run), or
the process is terminated by `log.Fatalf` (deferred calls do not run). -/
inductive Outcome where
  | returned
  | exited
deriving DecidableEq, Repr

/-- One execution of a handler. -/
structure Run where
  /-- The events of the handler's goroutine, in program order. -/
  events : List Event
  /-- The events of each goroutine started by a go statement, in order of dispatch. -/
  tasks : List (List Event)
  outcome : Outcome
deriving DecidableEq, Repr

/-! ## The handlers -/

/-- The function `sleepMilli(min)`: sleeps `min + rand.Intn(100)` milliseconds; `draw` is the
raw random number, so `rand.Intn(100)` is `draw % 100`. -/
def sleepMilli (min draw : Nat) : Event := .sleep (min + draw % 100)

/-- The call `log.Fatalf("%s: Couldn't inject headers (%v)", r.URL.Path, err)`. -/
def fatalInject (path err : String) : Event :=
  .fatal (path ++ ": Couldn't inject headers (" ++ err ++ ")")

/-- The body of the goroutine started by `homeHandler` (lines 92-97). -/
def asyncTask (client : Client) (draw : Nat) (r asyncReq : Request) : List Event :=
  [sleepMilli 50 draw, .send asyncReq, .recv asyncReq (client asyncReq)] ++
    match client asyncReq with
    | .failure err => [.logPrintf (r.path ++ ": Async call failed (" ++ err ++ ")")]
    | .response _ => []

/-- The handler `homeHandler` (lines 80-113). `drawAsync` and `drawSync` are the random numbers
drawn by the two calls of `sleepMilli`. -/
def homeHandler (tr : Tracer) (client : Client) (fresh : FreshIDs) (drawAsync drawSync : Nat)
    (r : Request) : Run :=
  let sp := StartSpan "GET /home" [] fresh
  let asyncReq := NewRequest "GET" "/async"
  let start := [Event.write "Request started", .startSpan sp, .inject sp.context asyncReq]
  match tr.Inject sp.context asyncReq.header with
  | .error err => ⟨start ++ [fatalInject r.path err], [], .exited⟩
  | .ok hAsync =>
    let asyncReq := { asyncReq with header := hAsync }
    let task := asyncTask client drawAsync r asyncReq
    let syncReq := NewRequest "GET" "/service"
    let mid := start ++ [.go, sleepMilli 10 drawSync, .inject sp.context syncReq]
    match tr.Inject sp.context syncReq.header with
    | .error err => ⟨mid ++ [fatalInject r.path err], [task], .exited⟩
    | .ok hSync =>
      let syncReq := { syncReq with header := hSync }
      let called := mid ++ [.send syncReq, .recv syncReq (client syncReq)]
      match client syncReq with
      | .failure err =>
        ⟨called ++ [.logPrintf (r.path ++ ": Synchronous call failed (" ++ err ++ ")"),
          .finish sp], [task], .returned⟩
      | .response _ => ⟨called ++ [.write "... done!", .finish sp], [task], .returned⟩

/-- The part of `serviceHandler` after the span `sp` is started (lines 132-147), shared by
both branches of the extraction: deferred finish, sleep, injection, the call of `/db`. -/
def serviceBody (tr : Tracer) (client : Client) (draw : Nat) (r : Request) (sp : Span) : Run :=
  let dbReq := NewRequest "GET" "/db"
  let start := [sleepMilli 50 draw, Event.inject sp.context dbReq]
  match tr.Inject sp.context dbReq.header with
  | .error err => ⟨start ++ [fatalInject r.path err], [], .exited⟩
  | .ok hDb =>
    let dbReq := { dbReq with header := hDb }
    let called := start ++ [.send dbReq, .recv dbReq (client dbReq)]
    match client dbReq with
    | .failure err => ⟨called ++ [.logEvent sp "db request error" err, .finish sp], [], .returned⟩
    | .response _ => ⟨called ++ [.finish sp], [], .returned⟩

/-- The span `serviceHandler` starts (lines 116-131). -/
def serviceSpan (tr : Tracer) (fresh : FreshIDs) (r : Request) : Span :=
  let opName := r.method ++ " " ++ r.path
  match tr.Extract r.header with
  | .ok spCtx =>
    let sf := if r.path = "/async" then FollowsFrom spCtx else ChildOf spCtx
    StartSpan opName [sf] fresh
  | .error _ => StartSpan opName [] fresh

/-- The handler `serviceHandler` (lines 115-147), registered for `/async` and `/service`. -/
def serviceHandler (tr : Tracer) (client : Client) (fresh : FreshIDs) (draw : Nat)
    (r : Request) : Run :=
  let sp := serviceSpan tr fresh r
  let body := serviceBody tr client draw r sp
  ⟨.startSpan sp :: body.events, body.tasks, body.outcome⟩

/-- The error value of a Go result pair `(value, err)`: `none` is `err == nil`. -/
def errOf {α : Type} : Except String α → Option String
  | .ok _ => none
  | .error e => some e

/-- The handler `dbHandler` (lines 149-165). The early return of lines 154-157 and the
`if err == nil ... else ...` of lines 158-162 are both kept. -/
def dbHandler (tr : Tracer) (fresh : FreshIDs) (draw : Nat) (r : Request) : Run :=
  let res := tr.Extract r.header
  match errOf res with
  | some err => ⟨[.logPrintf (r.path ++ ": Could not join trace (" ++ err ++ ")")], [], .returned⟩
  | none =>
    let sp :=
      match res with
      | .ok spanCtx => StartSpan "GET /db" [ChildOf spanCtx] fresh
      | .error _ => StartSpan "GET /db" [] fresh
    ⟨[.startSpan sp, sleepMilli 25 draw, .finish sp], [], .returned⟩

/-- The handler `indexHandler` (lines 77-79). -/
def indexHandler (_r : Request) : Run :=
  ⟨[.write "<a href=\"/home\"> Click here to start a request </a>"], [], .returned⟩

/-! ## Reading a trace -/

/-- The spans started in a trace, in order. -/
def started (evs : List Event) : List Span :=
  evs.filterMap fun e => match e with
    | .startSpan sp => some sp
    | _ => none

/-- The spans finished (handed to the reporter) in a trace, in order. -/
def finished (evs : List Event) : List Span :=
  evs.filterMap fun e => match e with
    | .finish sp => some sp
    | _ => none

/-- The requests issued in a trace, in order. -/
def sent (evs : List Event) : List Request :=
  evs.filterMap fun e => match e with
    | .send req => some req
    | _ => none

/-- The injections of a trace, in order: the context injected and the request it is injected into. -/
def injections (evs : List Event) : List (SpanContext × Request) :=
  evs.filterMap fun e => match e with
    | .inject ctx req => some (ctx, req)
    | _ => none

/-- The events logged on spans in a trace, in order: span, event name, payload. -/
def spanLogs (evs : List Event) : List (Span × String × String) :=
  evs.filterMap fun e => match e with
    | .logEvent sp name payload => some (sp, name, payload)
    | _ => none

/-- The response body written in a trace. -/
def bodyOf (evs : List Event) : String :=
  String.join (evs.filterMap fun e => match e with
    | .write body => some body
    | _ => none)

/-! ## Goroutines: the schedules of a run

The goroutine started by `go func() ...` shares no channel, lock or wait group with the
handler, so from the go statement on its events may fall anywhere between the handler's.
Durations are not modelled: a sleep is an event, and the two goroutines may run at any
relative speed. -/

/-- The merges of `x :: xs` with a second sequence, given the merges `merged` of `xs` with
any sequence: the next event is `x`, or the head of the second sequence. -/
def interleavingsFrom {α : Type} (x : α) (xs : List α) (merged : List α → List (List α)) :
    List α → List (List α)
  | [] => [x :: xs]
  | y :: ys => (merged (y :: ys)).map (x :: ·) ++ (interleavingsFrom x xs merged ys).map (y :: ·)

/-- All ways to merge two event sequences, keeping the order inside each. -/
def interleavings {α : Type} : List α → List α → List (List α)
  | [] => fun ys => [ys]
  | x :: xs => interleavingsFrom x xs (interleavings xs)

/-- All merges of the handler's events with the events of the goroutines it starts: the
k-th go statement releases the k-th goroutine, whose events come after it. -/
def sched : List Event → List (List Event) → List (List Event)
  | [], _ => [[]]
  | .go :: rest, t :: ts =>
    ((sched rest ts).flatMap fun s => interleavings s t).map (Event.go :: ·)
  | e :: rest, ts => (sched rest ts).map (e :: ·)

/-- Nothing happens after the process has exited: the trace is cut after the first fatal event. -/
def cutAtExit : List Event → List Event
  | [] => []
  | .fatal msg :: _ => [.fatal msg]
  | e :: es => e :: cutAtExit es

/-- The global event orders a run of a handler can show. -/
def schedules (run : Run) : List (List Event) :=
  (sched run.events run.tasks).map cutAtExit

/-- The events the finish of the root span is ordered against: the return of the `/service`
call, and the finish of a span. -/
def syncReturnOrFinish : Event → Bool
  | .recv req _ => decide (req.path = "/service")
  | .finish _ => true
  | _ => false

/-! ## The four handlers composed

The transport delivers every outbound request to the handler registered for its path in
`main` and never fails; the caller is blocked while the callee runs. -/

/-- The handlers registered in `main` (lines 69-73). -/
inductive Route where
  | index
  | home
  | service
  | db
deriving DecidableEq, Repr

/-- The routing of `http.ServeMux` for the patterns of lines 69-73: an exact pattern wins,
the pattern `/` takes every other path. -/
def mux (path : String) : Route :=
  if path = "/home" then .home
  else if path = "/async" then .service
  else if path = "/service" then .service
  else if path = "/db" then .db
  else .index

/-- The random numbers one handler invocation draws: the identifiers of its span and the
jitter of its (at most two) sleeps. -/
structure Draws where
  fresh : FreshIDs
  draw1 : Nat
  draw2 : Nat
deriving DecidableEq, Repr

/-- The random draws of every handler invocation of a composed run. An invocation is named
by the paths of the requests that led to it, innermost first; no handler sends two requests
to the same path, so the name is unique. -/
abbrev Rand := List String → Draws

/-- A run of the composed system. -/
structure SystemRun where
  /-- The events of the goroutine serving the request, callee events in place. -/
  main : List Event
  /-- The event sequences of all other goroutines started during the run. -/
  others : List (List Event)
  outcome : Outcome
deriving DecidableEq, Repr

/-- Splices the callee's run into the caller's events at every send. If the callee
terminates the process the caller does not continue. `none`: the callee is out of fuel. -/
def link (callee : Request → Option SystemRun) : List Event → Option SystemRun
  | [] => some ⟨[], [], .returned⟩
  | .send req :: rest =>
    match callee req with
    | none => none
    | some c =>
      match c.outcome with
      | .exited => some ⟨.send req :: c.main, c.others, .exited⟩
      | .returned =>
        match link callee rest with
        | none => none
        | some k => some ⟨.send req :: (c.main ++ k.main), c.others ++ k.others, k.outcome⟩
  | .fatal msg :: _ => some ⟨[.fatal msg], [], .exited⟩
  | e :: rest =>
    match link callee rest with
    | none => none
    | some k => some ⟨e :: k.main, k.others, k.outcome⟩

/-- Links every goroutine of a list; the goroutines started inside follow their starter. -/
def linkTasks (callee : Request → Option SystemRun) : List (List Event) → Option (List (List Event))
  | [] => some []
  | t :: ts =>
    match link callee t, linkTasks callee ts with
    | some k, some ks => some (k.main :: k.others ++ ks)
    | _, _ => none

/-- Serves a request through `mux`; every outbound request of the handler is served the
same way with one unit of fuel less. `name` names this invocation for the random draws. -/
def serve (tr : Tracer) (rnd : Rand) : Nat → List String → Request → Option SystemRun
  | 0, _, _ => none
  | fuel + 1, name, r =>
    let callee : Request → Option SystemRun := fun q => serve tr rnd fuel (q.path :: name) q
    let client : Client := fun q =>
      match callee q with
      | some c => .response (bodyOf c.main)
      | none => .response ""
    let d := rnd name
    let own : Run :=
      match mux r.path with
      | .index => indexHandler r
      | .home => homeHandler tr client d.fresh d.draw1 d.draw2 r
      | .service => serviceHandler tr client d.fresh d.draw1 r
      | .db => dbHandler tr d.fresh d.draw1 r
    match link callee own.events, linkTasks callee own.tasks with
    | some k, some ts => some ⟨k.main, k.others ++ ts, k.outcome⟩
    | _, _ => none

/-- The spans handed to the reporter in a composed run once every goroutine has run to
its end, listed goroutine by goroutine (the serving goroutine first). -/
def reported (sys : SystemRun) : List Span :=
  finished sys.main ++ sys.others.flatMap finished

/-- Whether some goroutine of a composed run terminates the process. -/
def exits (sys : SystemRun) : Bool :=
  (sys.main :: sys.others).any fun t => t.any fun e => match e with
    | .fatal _ => true
    | _ => false

/-- The events of a `/db` invocation that joins the context `C` (closed form of `dbHandler`). -/
def dbEvents (C : SpanContext) (d : Draws) : List Event :=
  [.startSpan (StartSpan "GET /db" [ChildOf C] d.fresh), .sleep (25 + d.draw1 % 100),
    .finish (StartSpan "GET /db" [ChildOf C] d.fresh)]

/-- The events of a `/service` or `/async` invocation whose span is `sp` and whose `/db`
request, with headers `hd`, is served in place (closed form of `serviceHandler` linked
with `dbHandler`). -/
def serviceEvents (sp : Span) (d dDb : Draws) (hd : Header) : List Event :=
  [.startSpan sp, .sleep (50 + d.draw1 % 100), .inject sp.context ⟨"GET", "/db", []⟩,
    .send ⟨"GET", "/db", hd⟩] ++ dbEvents sp.context dDb ++
    [.recv ⟨"GET", "/db", hd⟩ (.response ""), .finish sp]

/-! ## Sample tracers -/

/-- The number `n` written in unary. -/
def unary (n : Nat) : String := String.mk (List.replicate n 'x')

/-- A codec that writes the identifiers in unary into three headers, followed by the baggage. -/
def unaryTracer : Tracer where
  Inject := fun c h =>
    .ok (("trace-id", unary c.traceID) :: ("span-id", unary c.spanID) ::
      ("parent-id", match c.parentID with
        | none => ""
        | some p => unary (p + 1)) :: (c.baggage ++ h))
  Extract := fun h =>
    match h with
    | (_, t) :: (_, s) :: (_, p) :: rest =>
      .ok ⟨t.length, s.length, if p.length = 0 then none else some (p.length - 1), rest⟩
    | _ => .error "no trace context"

/-- A tracer whose codec fails in both directions. -/
def failingTracer : Tracer where
  Inject := fun _ _ => .error "unsupported carrier"
  Extract := fun _ => .error "no trace context"

/-- A tracer that reads a context from any carrier but cannot write one. -/
def readOnlyTracer : Tracer where
  Inject := fun _ _ => .error "unsupported carrier"
  Extract := fun _ => .ok ⟨7, 1, none, []⟩


/-! ## The handlers in closed form -/

/-- The context of a span started without references. -/
theorem StartSpan_root (name : String) (fresh : FreshIDs) :
    StartSpan name [] fresh = ⟨name, ⟨fresh.traceID, fresh.spanID, none, []⟩, []⟩ := rfl

/-- The context of a span started with one reference. -/
theorem StartSpan_one (name : String) (ref : SpanReference) (fresh : FreshIDs) :
    StartSpan name [ref] fresh =
      ⟨name, ⟨ref.referencedContext.traceID, fresh.spanID, some ref.referencedContext.spanID,
        ref.referencedContext.baggage⟩, [ref]⟩ := rfl

/-- The body of `serviceHandler` when the injection fails. -/
theorem serviceBody_inject_error (tr : Tracer) (client : Client) (draw : Nat) (r : Request)
    (sp : Span) (err : String) (h : tr.Inject sp.context [] = .error err) :
    serviceBody tr client draw r sp =
      ⟨[.sleep (50 + draw % 100), .inject sp.context ⟨"GET", "/db", []⟩,
        .fatal (r.path ++ ": Couldn't inject headers (" ++ err ++ ")")], [], .exited⟩ := by
  simp [serviceBody, NewRequest, h, sleepMilli, fatalInject]

/-- The body of `serviceHandler` when the injection succeeds. -/
theorem serviceBody_inject_ok (tr : Tracer) (client : Client) (draw : Nat) (r : Request)
    (sp : Span) (hDb : Header) (h : tr.Inject sp.context [] = .ok hDb) :
    serviceBody tr client draw r sp =
      ⟨[.sleep (50 + draw % 100), .inject sp.context ⟨"GET", "/db", []⟩,
        .send ⟨"GET", "/db", hDb⟩, .recv ⟨"GET", "/db", hDb⟩ (client ⟨"GET", "/db", hDb⟩)] ++
        (match client ⟨"GET", "/db", hDb⟩ with
          | .failure err => [.logEvent sp "db request error" err]
          | .response _ => []) ++ [.finish sp], [], .returned⟩ := by
  cases hc : client ⟨"GET", "/db", hDb⟩ <;>
    simp [serviceBody, NewRequest, h, hc, sleepMilli]

/-- The run of `homeHandler` when the injection fails. -/
theorem homeHandler_inject_error (tr : Tracer) (client : Client) (fresh : FreshIDs)
    (drawAsync drawSync : Nat) (r : Request) (err : String)
    (h : tr.Inject (StartSpan "GET /home" [] fresh).context [] = .error err) :
    homeHandler tr client fresh drawAsync drawSync r =
      ⟨[.write "Request started", .startSpan (StartSpan "GET /home" [] fresh),
        .inject (StartSpan "GET /home" [] fresh).context ⟨"GET", "/async", []⟩,
        .fatal (r.path ++ ": Couldn't inject headers (" ++ err ++ ")")], [], .exited⟩ := by
  simp [homeHandler, NewRequest, h, fatalInject]

/-- The run of `homeHandler` when the injection succeeds. -/
theorem homeHandler_inject_ok (tr : Tracer) (client : Client) (fresh : FreshIDs)
    (drawAsync drawSync : Nat) (r : Request) (hd : Header)
    (h : tr.Inject (StartSpan "GET /home" [] fresh).context [] = .ok hd) :
    homeHandler tr client fresh drawAsync drawSync r =
      ⟨[.write "Request started", .startSpan (StartSpan "GET /home" [] fresh),
        .inject (StartSpan "GET /home" [] fresh).context ⟨"GET", "/async", []⟩,
        .go, .sleep (10 + drawSync % 100),
        .inject (StartSpan "GET /home" [] fresh).context ⟨"GET", "/service", []⟩,
        .send ⟨"GET", "/service", hd⟩,
        .recv ⟨"GET", "/service", hd⟩ (client ⟨"GET", "/service", hd⟩),
        (match client ⟨"GET", "/service", hd⟩ with
          | .failure err => .logPrintf (r.path ++ ": Synchronous call failed (" ++ err ++ ")")
          | .response _ => .write "... done!"),
        .finish (StartSpan "GET /home" [] fresh)],
       [asyncTask client drawAsync r ⟨"GET", "/async", hd⟩], .returned⟩ := by
  cases hc : client ⟨"GET", "/service", hd⟩ <;>
    simp [homeHandler, NewRequest, h, hc, sleepMilli]

/-- The run of `dbHandler` when the extraction fails. -/
theorem dbHandler_extract_error (tr : Tracer) (fresh : FreshIDs) (draw : Nat) (r : Request)
    (err : String) (h : tr.Extract r.header = .error err) :
    dbHandler tr fresh draw r =
      ⟨[.logPrintf (r.path ++ ": Could not join trace (" ++ err ++ ")")], [], .returned⟩ := by
  simp [dbHandler, h, errOf]

/-- The run of `dbHandler` when the extraction succeeds. -/
theorem dbHandler_extract_ok (tr : Tracer) (fresh : FreshIDs) (draw : Nat) (r : Request)
    (C : SpanContext) (h : tr.Extract r.header = .ok C) :
    dbHandler tr fresh draw r =
      ⟨[.startSpan (StartSpan "GET /db" [ChildOf C] fresh), .sleep (25 + draw % 100),
        .finish (StartSpan "GET /db" [ChildOf C] fresh)], [], .returned⟩ := by
  simp [dbHandler, h, errOf, sleepMilli]

/-- The handler `serviceHandler` starts exactly the span `serviceSpan`. -/
theorem started_serviceHandler (tr : Tracer) (client : Client) (fresh : FreshIDs) (draw : Nat)
    (r : Request) :
    started (serviceHandler tr client fresh draw r).events = [serviceSpan tr fresh r] := by
  cases hi : tr.Inject (serviceSpan tr fresh r).context [] with
  | error e =>
    simp [serviceHandler, serviceBody_inject_error tr client draw r _ e hi, started]
  | ok hDb =>
    simp only [serviceHandler, serviceBody_inject_ok tr client draw r _ hDb hi]
    cases client ⟨"GET", "/db", hDb⟩ <;> simp [started]

/-- The handler `serviceHandler` injects the context of `serviceSpan` into a new `/db` request. -/
theorem injections_serviceHandler (tr : Tracer) (client : Client) (fresh : FreshIDs)
    (draw : Nat) (r : Request) :
    injections (serviceHandler tr client fresh draw r).events =
      [((serviceSpan tr fresh r).context, ⟨"GET", "/db", []⟩)] := by
  cases hi : tr.Inject (serviceSpan tr fresh r).context [] with
  | error e =>
    simp [serviceHandler, serviceBody_inject_error tr client draw r _ e hi, injections]
  | ok hDb =>
    simp only [serviceHandler, serviceBody_inject_ok tr client draw r _ hDb hi]
    cases client ⟨"GET", "/db", hDb⟩ <;> simp [injections]

/-- The goroutine of `homeHandler` issues exactly the `/async` request. -/
theorem sent_asyncTask (client : Client) (draw : Nat) (r asyncReq : Request) :
    sent (asyncTask client draw r asyncReq) = [asyncReq] := by
  unfold asyncTask
  cases client asyncReq <;> simp [sent, sleepMilli]

/-! ## Schedules -/

/-- Merging with nothing before: only the second sequence. -/
theorem interleavings_nil_left {α : Type} (ys : List α) : interleavings [] ys = [ys] := rfl

/-- Merging with no events leaves the sequence alone. -/
theorem interleavings_nil_right {α : Type} (xs : List α) : interleavings xs [] = [xs] := by
  cases xs <;> rfl

/-- The next event of a merge is the head of the first or of the second sequence. -/
theorem interleavings_cons_cons {α : Type} (x : α) (xs : List α) (y : α) (ys : List α) :
    interleavings (x :: xs) (y :: ys) =
      (interleavings xs (y :: ys)).map (x :: ·) ++ (interleavings (x :: xs) ys).map (y :: ·) :=
  rfl

/-- Every event of a merge comes from one of the two sequences. -/
theorem mem_of_mem_interleavings {α : Type} (xs ys : List α) :
    ∀ s ∈ interleavings xs ys, ∀ e ∈ s, e ∈ xs ∨ e ∈ ys := by
  induction xs generalizing ys with
  | nil => simp [interleavings_nil_left]
  | cons x xs ih1 =>
    induction ys with
    | nil => simp [interleavings_nil_right]
    | cons y ys ih2 =>
      intro s hs e he
      simp only [interleavings_cons_cons, List.mem_append, List.mem_map] at hs
      rcases hs with ⟨s1, hs1, rfl⟩ | ⟨s2, hs2, rfl⟩
      · rcases List.mem_cons.mp he with rfl | he
        · simp
        · rcases ih1 (y :: ys) s1 hs1 e he with h | h
          · exact Or.inl (List.mem_cons_of_mem _ h)
          · exact Or.inr h
      · rcases List.mem_cons.mp he with rfl | he
        · simp
        · rcases ih2 s2 hs2 e he with h | h
          · exact Or.inl h
          · exact Or.inr (List.mem_cons_of_mem _ h)

/-- A merge keeps the order of the events of the first sequence: filtering by a predicate
that holds of no event of the second sequence gives the filtered first sequence. -/
theorem filter_of_mem_interleavings {α : Type} (p : α → Bool) (xs ys : List α) :
    (∀ y ∈ ys, p y = false) → ∀ s ∈ interleavings xs ys, s.filter p = xs.filter p := by
  induction xs generalizing ys with
  | nil =>
    intro h s hs
    simp only [interleavings_nil_left, List.mem_singleton] at hs
    subst hs
    simpa using h
  | cons x xs ih1 =>
    induction ys with
    | nil =>
      intro _ s hs
      simp only [interleavings_nil_right, List.mem_singleton] at hs
      rw [hs]
    | cons y ys ih2 =>
      intro h s hs
      simp only [interleavings_cons_cons, List.mem_append, List.mem_map] at hs
      rcases hs with ⟨s1, hs1, rfl⟩ | ⟨s2, hs2, rfl⟩
      · simp only [List.filter_cons, ih1 (y :: ys) h s1 hs1]
      · have hy : p y = false := h y (List.mem_cons_self _ _)
        have h2 := ih2 (fun z hz => h z (List.mem_cons_of_mem _ hz)) s2 hs2
        simp only [List.filter_cons, hy] at h2 ⊢
        simpa using h2

/-- A merge holds exactly the events of the two sequences. -/
theorem perm_of_mem_interleavings {α : Type} (xs ys : List α) :
    ∀ s ∈ interleavings xs ys, s.Perm (xs ++ ys) := by
  induction xs generalizing ys with
  | nil =>
    intro s hs
    simp only [interleavings_nil_left, List.mem_singleton] at hs
    subst hs
    exact List.Perm.refl _
  | cons x xs ih1 =>
    induction ys with
    | nil =>
      intro s hs
      simp only [interleavings_nil_right, List.mem_singleton] at hs
      subst hs
      simp
    | cons y ys ih2 =>
      intro s hs
      simp only [interleavings_cons_cons, List.mem_append, List.mem_map] at hs
      rcases hs with ⟨s1, hs1, rfl⟩ | ⟨s2, hs2, rfl⟩
      · exact (ih1 (y :: ys) s1 hs1).cons x
      · exact ((ih2 s2 hs2).cons y).trans List.perm_middle.symm

/-- The first sequence may run to its end before the second starts. -/
theorem append_mem_interleavings {α : Type} (xs ys : List α) :
    xs ++ ys ∈ interleavings xs ys := by
  induction xs with
  | nil => simp [interleavings_nil_left]
  | cons x xs ih =>
    cases ys with
    | nil => simp [interleavings_nil_right]
    | cons y ys =>
      simp only [interleavings_cons_cons, List.mem_append, List.mem_map]
      exact Or.inl ⟨xs ++ y :: ys, ih, rfl⟩

/-- The second sequence may run to its end before the first starts. -/
theorem append_mem_interleavings_swap {α : Type} (xs ys : List α) :
    ys ++ xs ∈ interleavings xs ys := by
  induction ys with
  | nil => simp [interleavings_nil_right]
  | cons y ys ih =>
    cases xs with
    | nil => simp [interleavings_nil_left]
    | cons x xs =>
      simp only [interleavings_cons_cons, List.mem_append, List.mem_map]
      exact Or.inr ⟨ys ++ x :: xs, ih, rfl⟩

/-- A trace without a fatal event is not cut. -/
theorem cutAtExit_of_no_fatal (s : List Event) (h : ∀ msg, Event.fatal msg ∉ s) :
    cutAtExit s = s := by
  induction s with
  | nil => rfl
  | cons e es ih =>
    have hes : ∀ msg, Event.fatal msg ∉ es := fun msg hm => h msg (List.mem_cons_of_mem _ hm)
    cases e <;> simp [cutAtExit, ih hes]
    exact (h _ (List.mem_cons_self _ _)).elim

/-- The goroutine of `homeHandler` never ends the process. -/
theorem asyncTask_no_fatal (client : Client) (draw : Nat) (r asyncReq : Request) (msg : String) :
    Event.fatal msg ∉ asyncTask client draw r asyncReq := by
  unfold asyncTask
  cases client asyncReq <;> simp [sleepMilli]

/-- The goroutine of `homeHandler` finishes no span and does not see the `/service` call
return, provided its own request is the `/async` request. -/
theorem asyncTask_no_syncReturnOrFinish (client : Client) (draw : Nat) (r : Request)
    (hd : Header) :
    ∀ e ∈ asyncTask client draw r ⟨"GET", "/async", hd⟩, syncReturnOrFinish e = false := by
  unfold asyncTask
  cases client ⟨"GET", "/async", hd⟩ <;> simp [sleepMilli, syncReturnOrFinish]

/-- The schedules of `homeHandler` when the injection succeeds: the handler's first four
events, then any merge of its remaining events with the events of the goroutine. -/
theorem mem_schedules_homeHandler_ok (tr : Tracer) (client : Client) (fresh : FreshIDs)
    (drawAsync drawSync : Nat) (r : Request) (hd : Header)
    (hi : tr.Inject (StartSpan "GET /home" [] fresh).context [] = .ok hd) (s : List Event) :
    s ∈ schedules (homeHandler tr client fresh drawAsync drawSync r) ↔
      ∃ s2 ∈ interleavings
          [.sleep (10 + drawSync % 100),
            .inject (StartSpan "GET /home" [] fresh).context ⟨"GET", "/service", []⟩,
            .send ⟨"GET", "/service", hd⟩,
            .recv ⟨"GET", "/service", hd⟩ (client ⟨"GET", "/service", hd⟩),
            (match client ⟨"GET", "/service", hd⟩ with
              | .failure err => .logPrintf (r.path ++ ": Synchronous call failed (" ++ err ++ ")")
              | .response _ => .write "... done!"),
            .finish (StartSpan "GET /home" [] fresh)]
          (asyncTask client drawAsync r ⟨"GET", "/async", hd⟩),
        s = .write "Request started" :: .startSpan (StartSpan "GET /home" [] fresh) ::
          .inject (StartSpan "GET /home" [] fresh).context ⟨"GET", "/async", []⟩ :: .go :: s2 := by
  rw [homeHandler_inject_ok tr client fresh drawAsync drawSync r hd hi]
  cases hc : client ⟨"GET", "/service", hd⟩ <;>
  · simp only [schedules, sched, List.map_map, List.mem_map, List.flatMap_cons,
      List.flatMap_nil, List.map_cons, List.map_nil, List.append_nil, Function.comp]
    have hcut : ∀ xs : List Event, (∀ msg, Event.fatal msg ∉ xs) →
        ∀ a ∈ interleavings xs (asyncTask client drawAsync r ⟨"GET", "/async", hd⟩),
        cutAtExit (.write "Request started" :: .startSpan (StartSpan "GET /home" [] fresh) ::
          .inject (StartSpan "GET /home" [] fresh).context ⟨"GET", "/async", []⟩ :: .go :: a) =
        .write "Request started" :: .startSpan (StartSpan "GET /home" [] fresh) ::
          .inject (StartSpan "GET /home" [] fresh).context ⟨"GET", "/async", []⟩ :: .go :: a := by
      intro xs hxs a ha
      apply cutAtExit_of_no_fatal
      intro msg hm
      simp only [List.mem_cons, reduceCtorEq, false_or] at hm
      rcases mem_of_mem_interleavings _ _ a ha _ hm with h | h
      · exact hxs msg h
      · exact asyncTask_no_fatal _ _ _ _ _ h
    constructor
    · rintro ⟨a, ha, rfl⟩
      exact ⟨a, ha, hcut _ (by simp) a ha⟩
    · rintro ⟨a, ha, rfl⟩
      exact ⟨a, ha, (hcut _ (by simp) a ha).symm ▸ rfl⟩

/-- The only schedule of `homeHandler` when the injection fails is its own event sequence. -/
theorem schedules_homeHandler_error (tr : Tracer) (client : Client) (fresh : FreshIDs)
    (drawAsync drawSync : Nat) (r : Request) (err : String)
    (hi : tr.Inject (StartSpan "GET /home" [] fresh).context [] = .error err) :
    schedules (homeHandler tr client fresh drawAsync drawSync r) =
      [[.write "Request started", .startSpan (StartSpan "GET /home" [] fresh),
        .inject (StartSpan "GET /home" [] fresh).context ⟨"GET", "/async", []⟩,
        .fatal (r.path ++ ": Couldn't inject headers (" ++ err ++ ")")]] := by
  rw [homeHandler_inject_error tr client fresh drawAsync drawSync r err hi]
  simp [schedules, sched, cutAtExit]

/-! ## The branch handler -/

/-- C1: when the extraction from the inbound headers succeeds with context `C`,
`serviceHandler` starts exactly one span; its operation name is the method, a blank and the
path; it carries exactly one reference, to `C`, of kind FollowsFrom when the path is
`/async` and of kind ChildOf for every other path. -/
theorem serviceHandler_extracted_reference (tr : Tracer) (client : Client) (fresh : FreshIDs)
    (draw : Nat) (r : Request) (C : SpanContext) (h : tr.Extract r.header = .ok C) :
    ∃ sp, started (serviceHandler tr client fresh draw r).events = [sp] ∧
      sp.operationName = r.method ++ " " ++ r.path ∧
      sp.references =
        [⟨if r.path = "/async" then .FollowsFromRef else .ChildOfRef, C⟩] := by
  refine ⟨serviceSpan tr fresh r, ?_, ?_, ?_⟩
  · unfold serviceHandler serviceBody
    cases hi : tr.Inject (serviceSpan tr fresh r).context (NewRequest "GET" "/db").header with
    | error err => simp [hi, started, sleepMilli, fatalInject]
    | ok hDb =>
      cases hc : client { NewRequest "GET" "/db" with header := hDb } <;>
        simp [hi, hc, started, sleepMilli]
  · simp only [serviceSpan, h]
    split <;> simp [StartSpan]
  · simp only [serviceSpan, h]
    split <;> simp_all [StartSpan, FollowsFrom, ChildOf]

/-- Witness of C1: a request to `/async` carrying a context. -/
theorem serviceHandler_extracted_reference_witness :
    readOnlyTracer.Extract (Request.mk "GET" "/async" []).header = .ok ⟨7, 1, none, []⟩ ∧
    ∃ sp, started (serviceHandler readOnlyTracer (fun _ => .response "") ⟨5, 2⟩ 0
        ⟨"GET", "/async", []⟩).events = [sp] ∧
      sp.operationName = "GET" ++ " " ++ "/async" ∧
      sp.references =
        [⟨if "/async" = "/async" then .FollowsFromRef else .ChildOfRef, ⟨7, 1, none, []⟩⟩] :=
  ⟨rfl, serviceHandler_extracted_reference readOnlyTracer (fun _ => .response "") ⟨5, 2⟩ 0
    ⟨"GET", "/async", []⟩ ⟨7, 1, none, []⟩ rfl⟩

/-- C2: when the extraction from the inbound headers fails, `dbHandler` only logs the
condition: it starts no span, finishes none, sends no request, starts no goroutine, and
returns normally. On no input at all does `dbHandler` start a span without references: every
span it starts is a ChildOf the extracted context, so the root-span branch is dead. -/
theorem dbHandler_extract_fails_no_span (tr : Tracer) (fresh : FreshIDs) (draw : Nat)
    (r : Request) (err : String) (h : tr.Extract r.header = .error err) :
    (dbHandler tr fresh draw r).events =
        [.logPrintf (r.path ++ ": Could not join trace (" ++ err ++ ")")] ∧
      started (dbHandler tr fresh draw r).events = [] ∧
      finished (dbHandler tr fresh draw r).events = [] ∧
      sent (dbHandler tr fresh draw r).events = [] ∧
      (dbHandler tr fresh draw r).tasks = [] ∧
      (dbHandler tr fresh draw r).outcome = .returned ∧
      ∀ (tr2 : Tracer) (fresh2 : FreshIDs) (draw2 : Nat) (r2 : Request),
        ∀ sp ∈ started (dbHandler tr2 fresh2 draw2 r2).events,
          ∃ C, tr2.Extract r2.header = .ok C ∧ sp.references = [ChildOf C] := by
  rw [dbHandler_extract_error tr fresh draw r err h]
  refine ⟨rfl, rfl, rfl, rfl, rfl, rfl, ?_⟩
  intro tr2 fresh2 draw2 r2 sp hsp
  cases h2 : tr2.Extract r2.header with
  | error e2 =>
    rw [dbHandler_extract_error tr2 fresh2 draw2 r2 e2 h2] at hsp
    simp [started] at hsp
  | ok C =>
    rw [dbHandler_extract_ok tr2 fresh2 draw2 r2 C h2] at hsp
    simp [started] at hsp
    exact ⟨C, rfl, by rw [hsp]; rfl⟩

/-- Witness of C2: a request without trace headers. -/
theorem dbHandler_extract_fails_no_span_witness :
    failingTracer.Extract (Request.mk "GET" "/db" []).header = .error "no trace context" ∧
    (dbHandler failingTracer ⟨5, 2⟩ 0 ⟨"GET", "/db", []⟩).events =
      [.logPrintf ("/db" ++ ": Could not join trace (" ++ "no trace context" ++ ")")] :=
  ⟨rfl, (dbHandler_extract_fails_no_span failingTracer ⟨5, 2⟩ 0 ⟨"GET", "/db", []⟩
    "no trace context" rfl).1⟩

/-- Counterexample to C3 as stated: the extraction fails and so does the injection; the span is
started, but no request is issued, the span is never finished and the process exits. -/
theorem serviceHandler_root_fallback_inject_fails :
    failingTracer.Extract (Request.mk "GET" "/service" []).header = .error "no trace context" ∧
    started (serviceHandler failingTracer (fun _ => .response "") ⟨5, 2⟩ 0
      ⟨"GET", "/service", []⟩).events = [⟨"GET /service", ⟨5, 2, none, []⟩, []⟩] ∧
    sent (serviceHandler failingTracer (fun _ => .response "") ⟨5, 2⟩ 0
      ⟨"GET", "/service", []⟩).events = [] ∧
    finished (serviceHandler failingTracer (fun _ => .response "") ⟨5, 2⟩ 0
      ⟨"GET", "/service", []⟩).events = [] ∧
    (serviceHandler failingTracer (fun _ => .response "") ⟨5, 2⟩ 0
      ⟨"GET", "/service", []⟩).outcome = .exited := by
  refine ⟨rfl, ?_, ?_, ?_, ?_⟩ <;> decide

/-- C3, amended: when the extraction fails, `serviceHandler` still starts exactly one span,
named after method and path and without references, and runs the same body as after a
successful extraction: it attempts to inject that span's context into a `/db` request, and
when the injection succeeds it issues the request, finishes the span as its last step and
returns normally. -/
theorem serviceHandler_root_fallback (tr : Tracer) (client : Client) (fresh : FreshIDs)
    (draw : Nat) (r : Request) (err : String) (h : tr.Extract r.header = .error err) :
    ∃ sp : Span, sp.operationName = r.method ++ " " ++ r.path ∧ sp.references = [] ∧
      started (serviceHandler tr client fresh draw r).events = [sp] ∧
      injections (serviceHandler tr client fresh draw r).events = [(sp.context, ⟨"GET", "/db", []⟩)] ∧
      (serviceHandler tr client fresh draw r).events =
        .startSpan sp :: (serviceBody tr client draw r sp).events ∧
      ∀ hDb, tr.Inject sp.context [] = .ok hDb →
        sent (serviceHandler tr client fresh draw r).events = [⟨"GET", "/db", hDb⟩] ∧
        finished (serviceHandler tr client fresh draw r).events = [sp] ∧
        (serviceHandler tr client fresh draw r).events.getLast? = some (.finish sp) ∧
        (serviceHandler tr client fresh draw r).outcome = .returned := by
  have hsp : serviceSpan tr fresh r = StartSpan (r.method ++ " " ++ r.path) [] fresh := by
    simp [serviceSpan, h]
  refine ⟨StartSpan (r.method ++ " " ++ r.path) [] fresh, rfl, rfl, ?_, ?_, ?_, ?_⟩
  · cases hi : tr.Inject (StartSpan (r.method ++ " " ++ r.path) [] fresh).context [] with
    | error e =>
      simp [serviceHandler, hsp, serviceBody_inject_error tr client draw r _ e hi, started]
    | ok hDb =>
      simp only [serviceHandler, hsp, serviceBody_inject_ok tr client draw r _ hDb hi]
      cases client ⟨"GET", "/db", hDb⟩ <;> simp [started]
  · cases hi : tr.Inject (StartSpan (r.method ++ " " ++ r.path) [] fresh).context [] with
    | error e =>
      simp [serviceHandler, hsp, serviceBody_inject_error tr client draw r _ e hi, injections]
    | ok hDb =>
      simp only [serviceHandler, hsp, serviceBody_inject_ok tr client draw r _ hDb hi]
      cases client ⟨"GET", "/db", hDb⟩ <;> simp [injections]
  · simp [serviceHandler, hsp]
  · intro hDb hi
    simp only [serviceHandler, hsp, serviceBody_inject_ok tr client draw r _ hDb hi]
    cases client ⟨"GET", "/db", hDb⟩ <;> simp [sent, finished]

/-- Witness of C3, amended: a request without trace headers, served with a working codec. -/
theorem serviceHandler_root_fallback_witness :
    unaryTracer.Extract (Request.mk "GET" "/service" []).header = .error "no trace context" ∧
    ∃ sp : Span, sp.operationName = "GET" ++ " " ++ "/service" ∧ sp.references = [] ∧
      started (serviceHandler unaryTracer (fun _ => .response "") ⟨5, 2⟩ 0
        ⟨"GET", "/service", []⟩).events = [sp] :=
  ⟨rfl, by
    obtain ⟨sp, h1, h2, h3, _⟩ := serviceHandler_root_fallback unaryTracer
      (fun _ => .response "") ⟨5, 2⟩ 0 ⟨"GET", "/service", []⟩ "no trace context" rfl
    exact ⟨sp, h1, h2, h3⟩⟩

/-- C7: in `serviceHandler`, when the injection into the `/db` request succeeds, the handler
returns normally; if the `/db` call fails with error `e`, exactly one event is logged on the
handler's span, named "db request error" with payload `e`, and it is logged right before
the span is finished; if the `/db` call succeeds, no event is logged on the span. -/
theorem serviceHandler_db_error_logged (tr : Tracer) (client : Client) (fresh : FreshIDs)
    (draw : Nat) (r : Request) (sp : Span) (hDb : Header)
    (hsp : sp ∈ started (serviceHandler tr client fresh draw r).events)
    (hi : tr.Inject sp.context [] = .ok hDb) :
    (serviceHandler tr client fresh draw r).outcome = .returned ∧
    (∀ e, client ⟨"GET", "/db", hDb⟩ = .failure e →
      spanLogs (serviceHandler tr client fresh draw r).events = [(sp, "db request error", e)] ∧
      ∃ before, (serviceHandler tr client fresh draw r).events =
          before ++ [.logEvent sp "db request error" e, .finish sp] ∧
        finished before = [] ∧ spanLogs before = []) ∧
    (∀ body, client ⟨"GET", "/db", hDb⟩ = .response body →
      spanLogs (serviceHandler tr client fresh draw r).events = []) := by
  rw [started_serviceHandler] at hsp
  simp only [List.mem_singleton] at hsp
  subst hsp
  simp only [serviceHandler, serviceBody_inject_ok tr client draw r _ hDb hi]
  refine ⟨trivial, ?_, ?_⟩
  · intro e he
    rw [he]
    refine ⟨by simp [spanLogs], ?_⟩
    exact ⟨[.startSpan (serviceSpan tr fresh r), .sleep (50 + draw % 100),
      .inject (serviceSpan tr fresh r).context ⟨"GET", "/db", []⟩,
      .send ⟨"GET", "/db", hDb⟩, .recv ⟨"GET", "/db", hDb⟩ (.failure e)],
      by simp, by simp [finished], by simp [spanLogs]⟩
  · intro body hb
    rw [hb]
    simp [spanLogs]

/-- Witness of C7: the `/db` call times out. -/
theorem serviceHandler_db_error_logged_witness :
    (serviceHandler unaryTracer (fun _ => .failure "timeout") ⟨5, 2⟩ 0
      ⟨"GET", "/service", []⟩).outcome = .returned ∧
    spanLogs (serviceHandler unaryTracer (fun _ => .failure "timeout") ⟨5, 2⟩ 0
      ⟨"GET", "/service", []⟩).events =
        [(⟨"GET /service", ⟨5, 2, none, []⟩, []⟩, "db request error", "timeout")] :=
  have h := serviceHandler_db_error_logged unaryTracer (fun _ => .failure "timeout") ⟨5, 2⟩ 0
    ⟨"GET", "/service", []⟩ ⟨"GET /service", ⟨5, 2, none, []⟩, []⟩
    [("trace-id", unary 5), ("span-id", unary 2), ("parent-id", "")] (by decide) rfl
  ⟨h.1, (h.2.1 "timeout" rfl).1⟩

/-- Counterexample to C9 as stated: the inbound headers carry the context with trace 7 and
span 1; the context injected into the `/db` request, and read back from the headers of the
request sent, is the one of the new span: trace 7, but span 2 (and parent 1). -/
theorem serviceHandler_injected_context_differs :
    unaryTracer.Extract (Request.mk "GET" "/service"
      [("trace-id", unary 7), ("span-id", unary 1), ("parent-id", "")]).header =
        .ok ⟨7, 1, none, []⟩ ∧
    injections (serviceHandler unaryTracer (fun _ => .response "") ⟨5, 2⟩ 0
      ⟨"GET", "/service", [("trace-id", unary 7), ("span-id", unary 1), ("parent-id", "")]⟩).events
        = [(⟨7, 2, some 1, []⟩, ⟨"GET", "/db", []⟩)] ∧
    (sent (serviceHandler unaryTracer (fun _ => .response "") ⟨5, 2⟩ 0
      ⟨"GET", "/service", [("trace-id", unary 7), ("span-id", unary 1), ("parent-id", "")]⟩).events
        ).map (fun q => unaryTracer.Extract q.header) = [.ok ⟨7, 2, some 1, []⟩] ∧
    (SpanContext.mk 7 2 (some 1) []).spanID ≠ (SpanContext.mk 7 1 none []).spanID := by
  refine ⟨rfl, ?_, rfl, ?_⟩ <;> decide

/-- C9, amended: when the extraction succeeds with context `C`, the context `serviceHandler`
injects into the headers of the `/db` request is the context of the span it has just
started: it has the trace identifier (and baggage) of `C`, the newly drawn span identifier,
and the span identifier of `C` as its parent. -/
theorem serviceHandler_injects_own_context (tr : Tracer) (client : Client) (fresh : FreshIDs)
    (draw : Nat) (r : Request) (C : SpanContext) (h : tr.Extract r.header = .ok C) :
    ∃ sp, started (serviceHandler tr client fresh draw r).events = [sp] ∧
      injections (serviceHandler tr client fresh draw r).events =
        [(sp.context, ⟨"GET", "/db", []⟩)] ∧
      sp.context.traceID = C.traceID ∧ sp.context.baggage = C.baggage ∧
      sp.context.spanID = fresh.spanID ∧ sp.context.parentID = some C.spanID := by
  refine ⟨serviceSpan tr fresh r, started_serviceHandler tr client fresh draw r,
    injections_serviceHandler tr client fresh draw r, ?_, ?_, ?_, ?_⟩ <;>
  · simp only [serviceSpan, h]
    split <;> simp [StartSpan, FollowsFrom, ChildOf]

/-- Witness of C9, amended: the request of the counterexample. -/
theorem serviceHandler_injects_own_context_witness :
    unaryTracer.Extract (Request.mk "GET" "/service"
      [("trace-id", unary 7), ("span-id", unary 1), ("parent-id", "")]).header =
        .ok ⟨7, 1, none, []⟩ ∧
    ∃ sp, started (serviceHandler unaryTracer (fun _ => .response "") ⟨5, 2⟩ 0
        ⟨"GET", "/service", [("trace-id", unary 7), ("span-id", unary 1), ("parent-id", "")]⟩).events
          = [sp] ∧
      injections (serviceHandler unaryTracer (fun _ => .response "") ⟨5, 2⟩ 0
        ⟨"GET", "/service", [("trace-id", unary 7), ("span-id", unary 1), ("parent-id", "")]⟩).events
          = [(sp.context, ⟨"GET", "/db", []⟩)] ∧
      sp.context.traceID = (SpanContext.mk 7 1 none []).traceID ∧
      sp.context.baggage = (SpanContext.mk 7 1 none []).baggage ∧
      sp.context.spanID = (FreshIDs.mk 5 2).spanID ∧
      sp.context.parentID = some (SpanContext.mk 7 1 none []).spanID :=
  ⟨rfl, serviceHandler_injects_own_context unaryTracer (fun _ => .response "") ⟨5, 2⟩ 0
    ⟨"GET", "/service", [("trace-id", unary 7), ("span-id", unary 1), ("parent-id", "")]⟩
    ⟨7, 1, none, []⟩ rfl⟩

/-! ## The entry handler -/

/-- C4: for every inbound request, `homeHandler` starts one span, named "GET /home" and
without references; every injection it performs takes the context of that span; the
`/async` request of the goroutine and the `/service` request of the handler carry equal
headers; and when the injection succeeds both injections and both requests are there. -/
theorem homeHandler_same_context (tr : Tracer) (client : Client) (fresh : FreshIDs)
    (drawAsync drawSync : Nat) (r : Request) :
    ∃ sp : Span, sp.operationName = "GET /home" ∧ sp.references = [] ∧
      started (homeHandler tr client fresh drawAsync drawSync r).events = [sp] ∧
      (∀ p ∈ injections (homeHandler tr client fresh drawAsync drawSync r).events,
        p.1 = sp.context) ∧
      (∀ t ∈ (homeHandler tr client fresh drawAsync drawSync r).tasks, ∀ a ∈ sent t,
        ∀ q ∈ sent (homeHandler tr client fresh drawAsync drawSync r).events,
          a.path = "/async" ∧ q.path = "/service" ∧ a.header = q.header) ∧
      ∀ hd, tr.Inject sp.context [] = .ok hd →
        injections (homeHandler tr client fresh drawAsync drawSync r).events =
          [(sp.context, ⟨"GET", "/async", []⟩), (sp.context, ⟨"GET", "/service", []⟩)] ∧
        (homeHandler tr client fresh drawAsync drawSync r).tasks.map sent =
          [[⟨"GET", "/async", hd⟩]] ∧
        sent (homeHandler tr client fresh drawAsync drawSync r).events =
          [⟨"GET", "/service", hd⟩] := by
  refine ⟨StartSpan "GET /home" [] fresh, rfl, rfl, ?_⟩
  cases hi : tr.Inject (StartSpan "GET /home" [] fresh).context [] with
  | error e =>
    rw [homeHandler_inject_error tr client fresh drawAsync drawSync r e hi]
    simp [started, injections, sent]
  | ok hd =>
    rw [homeHandler_inject_ok tr client fresh drawAsync drawSync r hd hi]
    cases hc : client ⟨"GET", "/service", hd⟩ <;>
      simp only [List.map_cons, List.map_nil, List.mem_singleton, forall_eq,
        sent_asyncTask] <;>
      simp [started, injections, sent, hi]

/-- Witness of C4: with a working codec both outbound requests carry the headers of the root
context. -/
theorem homeHandler_same_context_witness :
    (homeHandler unaryTracer (fun _ => .response "") ⟨5, 2⟩ 0 0 ⟨"POST", "/home", []⟩).tasks.map
        sent = [[⟨"GET", "/async", [("trace-id", unary 5), ("span-id", unary 2), ("parent-id", "")]⟩]] ∧
    sent (homeHandler unaryTracer (fun _ => .response "") ⟨5, 2⟩ 0 0 ⟨"POST", "/home", []⟩).events =
      [⟨"GET", "/service", [("trace-id", unary 5), ("span-id", unary 2), ("parent-id", "")]⟩] := by
  obtain ⟨sp, _, _, h3, _, _, h6⟩ := homeHandler_same_context unaryTracer
    (fun _ => .response "") ⟨5, 2⟩ 0 0 ⟨"POST", "/home", []⟩
  have hsp : sp = ⟨"GET /home", ⟨5, 2, none, []⟩, []⟩ := by
    have h : started (homeHandler unaryTracer (fun _ => .response "") ⟨5, 2⟩ 0 0
        ⟨"POST", "/home", []⟩).events = [⟨"GET /home", ⟨5, 2, none, []⟩, []⟩] := by decide
    rw [h] at h3
    exact (List.singleton_inj.mp h3).symm
  subst hsp
  exact (h6 _ rfl).2

/-! ## Finishing the spans -/

/-- Counterexample to C6 as stated: in `homeHandler` the injection fails; the root span has
been started, `log.Fatalf` ends the process, and the span is never finished. -/
theorem homeHandler_inject_fails_span_unfinished :
    started (homeHandler failingTracer (fun _ => .response "") ⟨5, 2⟩ 0 0
      ⟨"GET", "/home", []⟩).events = [⟨"GET /home", ⟨5, 2, none, []⟩, []⟩] ∧
    finished (homeHandler failingTracer (fun _ => .response "") ⟨5, 2⟩ 0 0
      ⟨"GET", "/home", []⟩).events = [] ∧
    (homeHandler failingTracer (fun _ => .response "") ⟨5, 2⟩ 0 0
      ⟨"GET", "/home", []⟩).events.getLast? =
        some (.fatal "/home: Couldn't inject headers (unsupported carrier)") ∧
    (homeHandler failingTracer (fun _ => .response "") ⟨5, 2⟩ 0 0
      ⟨"GET", "/home", []⟩).outcome = .exited := by
  refine ⟨?_, ?_, ?_, ?_⟩ <;> decide

/-- C6, amended: each of `homeHandler`, `serviceHandler` and `dbHandler` starts at most one
span, and on every path on which the handler returns, the early return after a failed
synchronous call and the downstream-failure path included, the finish of that span is the
handler's last step and its only finish. `homeHandler` and `serviceHandler` return exactly
when the header injection succeeds, and `dbHandler` always returns. -/
theorem spans_finished_when_handler_returns :
    (∀ (tr : Tracer) (client : Client) (fresh : FreshIDs) (drawAsync drawSync : Nat)
        (r : Request),
      ∃ sp, started (homeHandler tr client fresh drawAsync drawSync r).events = [sp] ∧
        ((homeHandler tr client fresh drawAsync drawSync r).outcome = .returned ↔
          ∃ hd, tr.Inject sp.context [] = .ok hd) ∧
        ((homeHandler tr client fresh drawAsync drawSync r).outcome = .returned →
          finished (homeHandler tr client fresh drawAsync drawSync r).events = [sp] ∧
          (homeHandler tr client fresh drawAsync drawSync r).events.getLast? =
            some (.finish sp))) ∧
    (∀ (tr : Tracer) (client : Client) (fresh : FreshIDs) (draw : Nat) (r : Request),
      ∃ sp, started (serviceHandler tr client fresh draw r).events = [sp] ∧
        ((serviceHandler tr client fresh draw r).outcome = .returned ↔
          ∃ hDb, tr.Inject sp.context [] = .ok hDb) ∧
        ((serviceHandler tr client fresh draw r).outcome = .returned →
          finished (serviceHandler tr client fresh draw r).events = [sp] ∧
          (serviceHandler tr client fresh draw r).events.getLast? = some (.finish sp))) ∧
    (∀ (tr : Tracer) (fresh : FreshIDs) (draw : Nat) (r : Request),
      (dbHandler tr fresh draw r).outcome = .returned ∧
      finished (dbHandler tr fresh draw r).events = started (dbHandler tr fresh draw r).events ∧
      (started (dbHandler tr fresh draw r).events = [] ∨
        ∃ sp, started (dbHandler tr fresh draw r).events = [sp] ∧
          (dbHandler tr fresh draw r).events.getLast? = some (.finish sp))) := by
  refine ⟨?_, ?_, ?_⟩
  · intro tr client fresh drawAsync drawSync r
    refine ⟨StartSpan "GET /home" [] fresh, ?_⟩
    cases hi : tr.Inject (StartSpan "GET /home" [] fresh).context [] with
    | error e =>
      rw [homeHandler_inject_error tr client fresh drawAsync drawSync r e hi]
      simp [started]
    | ok hd =>
      rw [homeHandler_inject_ok tr client fresh drawAsync drawSync r hd hi]
      cases hc : client ⟨"GET", "/service", hd⟩ <;> simp [started, finished]
  · intro tr client fresh draw r
    refine ⟨serviceSpan tr fresh r, started_serviceHandler tr client fresh draw r, ?_⟩
    cases hi : tr.Inject (serviceSpan tr fresh r).context [] with
    | error e =>
      simp [serviceHandler, serviceBody_inject_error tr client draw r _ e hi]
    | ok hDb =>
      simp only [serviceHandler, serviceBody_inject_ok tr client draw r _ hDb hi]
      cases hc : client ⟨"GET", "/db", hDb⟩ <;> simp [finished]
  · intro tr fresh draw r
    cases h : tr.Extract r.header with
    | error e =>
      rw [dbHandler_extract_error tr fresh draw r e h]
      simp [started, finished]
    | ok C =>
      rw [dbHandler_extract_ok tr fresh draw r C h]
      simp [started, finished]

/-- Witness of C6, amended: the synchronous call of `homeHandler` fails, the handler returns
early and the root span is finished. -/
theorem spans_finished_when_handler_returns_witness :
    (homeHandler unaryTracer (fun _ => .failure "timeout") ⟨5, 2⟩ 0 0
      ⟨"GET", "/home", []⟩).outcome = .returned ∧
    finished (homeHandler unaryTracer (fun _ => .failure "timeout") ⟨5, 2⟩ 0 0
      ⟨"GET", "/home", []⟩).events = [⟨"GET /home", ⟨5, 2, none, []⟩, []⟩] := by
  obtain ⟨sp, h1, _, h3⟩ := spans_finished_when_handler_returns.1 unaryTracer
    (fun _ => .failure "timeout") ⟨5, 2⟩ 0 0 ⟨"GET", "/home", []⟩
  have hr : (homeHandler unaryTracer (fun _ => .failure "timeout") ⟨5, 2⟩ 0 0
      ⟨"GET", "/home", []⟩).outcome = .returned := by decide
  have hs : started (homeHandler unaryTracer (fun _ => .failure "timeout") ⟨5, 2⟩ 0 0
      ⟨"GET", "/home", []⟩).events = [⟨"GET /home", ⟨5, 2, none, []⟩, []⟩] := by decide
  rw [hs] at h1
  rw [← List.singleton_inj.mp h1] at h3
  exact ⟨hr, (h3 hr).1⟩

/-! ## Order of events in the entry handler -/

/-- C8: in `homeHandler`, when the injections succeed (both inject the context of the root
span into empty headers), in every schedule the root span is finished after the `/service`
call has returned, with a response or with an error, and it is finished exactly once. The
finish does not wait for the goroutine: there is a schedule in which the root span is
finished before the `/async` request is even sent, and one in which it is finished after the
`/async` call has returned; and the handler's own events do not depend on what the client
answers to any request other than the `/service` request. -/
theorem homeHandler_finish_after_sync_call (tr : Tracer) (client : Client) (fresh : FreshIDs)
    (drawAsync drawSync : Nat) (r : Request) (hd : Header)
    (hi : tr.Inject (StartSpan "GET /home" [] fresh).context [] = .ok hd) :
    (∀ s ∈ schedules (homeHandler tr client fresh drawAsync drawSync r),
      s.filter syncReturnOrFinish =
        [.recv ⟨"GET", "/service", hd⟩ (client ⟨"GET", "/service", hd⟩),
          .finish (StartSpan "GET /home" [] fresh)]) ∧
    (∃ s ∈ schedules (homeHandler tr client fresh drawAsync drawSync r), ∃ a b c,
      s = a ++ .finish (StartSpan "GET /home" [] fresh) ::
        (b ++ .send ⟨"GET", "/async", hd⟩ :: c)) ∧
    (∃ s ∈ schedules (homeHandler tr client fresh drawAsync drawSync r), ∃ a b c,
      s = a ++ .recv ⟨"GET", "/async", hd⟩ (client ⟨"GET", "/async", hd⟩) ::
        (b ++ .finish (StartSpan "GET /home" [] fresh) :: c)) ∧
    (∀ client2 : Client, client2 ⟨"GET", "/service", hd⟩ = client ⟨"GET", "/service", hd⟩ →
      (homeHandler tr client2 fresh drawAsync drawSync r).events =
        (homeHandler tr client fresh drawAsync drawSync r).events) := by
  refine ⟨?_, ?_, ?_, ?_⟩
  · intro s hs
    obtain ⟨s2, hs2, rfl⟩ :=
      (mem_schedules_homeHandler_ok tr client fresh drawAsync drawSync r hd hi s).mp hs
    have hf := filter_of_mem_interleavings syncReturnOrFinish _ _
      (asyncTask_no_syncReturnOrFinish client drawAsync r hd) s2 hs2
    cases hc : client ⟨"GET", "/service", hd⟩ <;> rw [hc] at hf <;>
      simp [List.filter_cons, syncReturnOrFinish, hf]
  · refine ⟨_, (mem_schedules_homeHandler_ok tr client fresh drawAsync drawSync r hd hi _).mpr
      ⟨_, append_mem_interleavings _ _, rfl⟩, ?_⟩
    refine ⟨[.write "Request started", .startSpan (StartSpan "GET /home" [] fresh),
      .inject (StartSpan "GET /home" [] fresh).context ⟨"GET", "/async", []⟩, .go,
      .sleep (10 + drawSync % 100),
      .inject (StartSpan "GET /home" [] fresh).context ⟨"GET", "/service", []⟩,
      .send ⟨"GET", "/service", hd⟩,
      .recv ⟨"GET", "/service", hd⟩ (client ⟨"GET", "/service", hd⟩),
      (match client ⟨"GET", "/service", hd⟩ with
        | .failure err => .logPrintf (r.path ++ ": Synchronous call failed (" ++ err ++ ")")
        | .response _ => .write "... done!")],
      [.sleep (50 + drawAsync % 100)],
      (.recv ⟨"GET", "/async", hd⟩ (client ⟨"GET", "/async", hd⟩) ::
        match client ⟨"GET", "/async", hd⟩ with
        | .failure err => [.logPrintf (r.path ++ ": Async call failed (" ++ err ++ ")")]
        | .response _ => []), ?_⟩
    simp [asyncTask, sleepMilli]
  · refine ⟨_, (mem_schedules_homeHandler_ok tr client fresh drawAsync drawSync r hd hi _).mpr
      ⟨_, append_mem_interleavings_swap _ _, rfl⟩, ?_⟩
    refine ⟨[.write "Request started", .startSpan (StartSpan "GET /home" [] fresh),
      .inject (StartSpan "GET /home" [] fresh).context ⟨"GET", "/async", []⟩, .go,
      .sleep (50 + drawAsync % 100), .send ⟨"GET", "/async", hd⟩],
      (match client ⟨"GET", "/async", hd⟩ with
        | .failure err => [.logPrintf (r.path ++ ": Async call failed (" ++ err ++ ")")]
        | .response _ => []) ++
      [.sleep (10 + drawSync % 100),
      .inject (StartSpan "GET /home" [] fresh).context ⟨"GET", "/service", []⟩,
      .send ⟨"GET", "/service", hd⟩,
      .recv ⟨"GET", "/service", hd⟩ (client ⟨"GET", "/service", hd⟩),
      (match client ⟨"GET", "/service", hd⟩ with
        | .failure err => .logPrintf (r.path ++ ": Synchronous call failed (" ++ err ++ ")")
        | .response _ => .write "... done!")], [], ?_⟩
    simp [asyncTask, sleepMilli]
  · intro client2 h2
    rw [homeHandler_inject_ok tr client fresh drawAsync drawSync r hd hi,
      homeHandler_inject_ok tr client2 fresh drawAsync drawSync r hd hi, h2]

/-- Witness of C8: a run with a working codec and a client that answers every request; all
84 schedules finish the root span after the `/service` call has returned. -/
theorem homeHandler_finish_after_sync_call_witness :
    unaryTracer.Inject (StartSpan "GET /home" [] ⟨5, 2⟩).context [] =
      .ok [("trace-id", unary 5), ("span-id", unary 2), ("parent-id", "")] ∧
    (schedules (homeHandler unaryTracer (fun _ => .response "") ⟨5, 2⟩ 0 0
        ⟨"GET", "/home", []⟩)).length = 84 ∧
    (schedules (homeHandler unaryTracer (fun _ => .response "") ⟨5, 2⟩ 0 0
        ⟨"GET", "/home", []⟩)).all (fun s => decide (s.filter syncReturnOrFinish =
        [.recv ⟨"GET", "/service", [("trace-id", unary 5), ("span-id", unary 2), ("parent-id", "")]⟩
            (.response ""),
          .finish (StartSpan "GET /home" [] ⟨5, 2⟩)])) = true :=
  ⟨rfl, by decide, List.all_eq_true.mpr fun s hs => decide_eq_true
    ((homeHandler_finish_after_sync_call unaryTracer (fun _ => .response "") ⟨5, 2⟩ 0 0
      ⟨"GET", "/home", []⟩ [("trace-id", unary 5), ("span-id", unary 2), ("parent-id", "")]
      rfl).1 s hs)⟩

/-- C10: in `homeHandler`, for every pair of random delays, the `/async` call is dispatched
before the `/service` call starts. In the handler's own event order, and in every schedule
of the run, each send has the go statement before it. When the injection succeeds, the
handler has exactly one go statement, and the goroutine it dispatches is the one that sends
the `/async` request; before the go statement nothing is sent, and the handler's only send,
the `/service` request, comes after it; in every schedule the requests sent after the go
statement are exactly the `/async` and the `/service` request, in either order. When the
injection fails nothing is dispatched and nothing is sent. -/
theorem homeHandler_async_dispatched_first (tr : Tracer) (client : Client) (fresh : FreshIDs)
    (drawAsync drawSync : Nat) (r : Request) :
    (∀ before q after,
      (homeHandler tr client fresh drawAsync drawSync r).events = before ++ .send q :: after →
        Event.go ∈ before) ∧
    (∀ s ∈ schedules (homeHandler tr client fresh drawAsync drawSync r), ∀ before q after,
      s = before ++ .send q :: after → Event.go ∈ before) ∧
    (∀ hd, tr.Inject (StartSpan "GET /home" [] fresh).context [] = .ok hd →
      (homeHandler tr client fresh drawAsync drawSync r).tasks.map sent =
        [[⟨"GET", "/async", hd⟩]] ∧
      (∃ before after,
        (homeHandler tr client fresh drawAsync drawSync r).events =
          before ++ .go :: after ∧
        Event.go ∉ before ∧ Event.go ∉ after ∧
        sent before = [] ∧ sent after = [⟨"GET", "/service", hd⟩]) ∧
      ∀ s ∈ schedules (homeHandler tr client fresh drawAsync drawSync r),
        ∃ before after, s = before ++ .go :: after ∧ sent before = [] ∧
          (sent after).Perm [⟨"GET", "/async", hd⟩, ⟨"GET", "/service", hd⟩]) ∧
    (∀ err, tr.Inject (StartSpan "GET /home" [] fresh).context [] = .error err →
      (homeHandler tr client fresh drawAsync drawSync r).tasks = [] ∧
      Event.go ∉ (homeHandler tr client fresh drawAsync drawSync r).events ∧
      sent (homeHandler tr client fresh drawAsync drawSync r).events = []) := by
  have key : ∀ (e1 e2 e3 : Event) (s2 before after : List Event) (q : Request),
      (∀ q2, e1 ≠ .send q2) → (∀ q2, e2 ≠ .send q2) → (∀ q2, e3 ≠ .send q2) →
      e1 :: e2 :: e3 :: .go :: s2 = before ++ .send q :: after → Event.go ∈ before := by
    intro e1 e2 e3 s2 before after q h1 h2 h3 h
    rcases before with _ | ⟨b1, before⟩
    · simp only [List.nil_append, List.cons.injEq] at h
      exact absurd h.1 (h1 _)
    rcases before with _ | ⟨b2, before⟩
    · simp only [List.cons_append, List.nil_append, List.cons.injEq] at h
      exact absurd h.2.1 (h2 _)
    rcases before with _ | ⟨b3, before⟩
    · simp only [List.cons_append, List.nil_append, List.cons.injEq] at h
      exact absurd h.2.2.1 (h3 _)
    rcases before with _ | ⟨b4, before⟩
    · simp at h
    · simp only [List.cons_append, List.cons.injEq] at h
      simp [← h.2.2.2.1]
  cases hi : tr.Inject (StartSpan "GET /home" [] fresh).context [] with
  | error err =>
    refine ⟨?_, ?_, ?_, ?_⟩
    · intro before q after h
      rw [homeHandler_inject_error tr client fresh drawAsync drawSync r err hi] at h
      have hq : Event.send q ∈ ([.write "Request started",
          .startSpan (StartSpan "GET /home" [] fresh),
          .inject (StartSpan "GET /home" [] fresh).context ⟨"GET", "/async", []⟩,
          .fatal (r.path ++ ": Couldn't inject headers (" ++ err ++ ")")] : List Event) := by
        simp only at h
        rw [h]
        simp
      simp at hq
    · intro s hs before q after h
      rw [schedules_homeHandler_error tr client fresh drawAsync drawSync r err hi] at hs
      simp only [List.mem_singleton] at hs
      have hq : Event.send q ∈ s := by rw [h]; simp
      rw [hs] at hq
      simp at hq
    · intro hd h
      simp at h
    · intro err2 _
      rw [homeHandler_inject_error tr client fresh drawAsync drawSync r err hi]
      simp [sent]
  | ok hd =>
    refine ⟨?_, ?_, ?_, ?_⟩
    · intro before q after h
      rw [homeHandler_inject_ok tr client fresh drawAsync drawSync r hd hi] at h
      exact key _ _ _ _ before after q (by simp) (by simp) (by simp) h
    · intro s hs before q after h
      obtain ⟨s2, _, rfl⟩ :=
        (mem_schedules_homeHandler_ok tr client fresh drawAsync drawSync r hd hi s).mp hs
      exact key _ _ _ _ before after q (by simp) (by simp) (by simp) h
    · intro hd2 h2
      cases h2
      refine ⟨?_, ?_, ?_⟩
      · rw [homeHandler_inject_ok tr client fresh drawAsync drawSync r hd hi]
        simp [sent_asyncTask]
      · rw [homeHandler_inject_ok tr client fresh drawAsync drawSync r hd hi]
        refine ⟨[.write "Request started", .startSpan (StartSpan "GET /home" [] fresh),
          .inject (StartSpan "GET /home" [] fresh).context ⟨"GET", "/async", []⟩], _, rfl,
          ?_, ?_, ?_, ?_⟩
        · simp
        · cases client ⟨"GET", "/service", hd⟩ <;> simp
        · simp [sent]
        · cases client ⟨"GET", "/service", hd⟩ <;> simp [sent]
      · intro s hs
        obtain ⟨s2, hs2, rfl⟩ :=
          (mem_schedules_homeHandler_ok tr client fresh drawAsync drawSync r hd hi s).mp hs
        refine ⟨[.write "Request started", .startSpan (StartSpan "GET /home" [] fresh),
          .inject (StartSpan "GET /home" [] fresh).context ⟨"GET", "/async", []⟩], s2, rfl,
          by simp [sent], ?_⟩
        have hp := (perm_of_mem_interleavings _ _ s2 hs2).filterMap (fun e => match e with
          | .send req => some req
          | _ => none)
        have ht := sent_asyncTask client drawAsync r ⟨"GET", "/async", hd⟩
        simp only [sent] at ht ⊢
        rw [List.filterMap_append, ht] at hp
        refine hp.trans ?_
        cases client ⟨"GET", "/service", hd⟩ <;> simp <;> exact List.Perm.swap _ _ _
    · intro err h
      simp at h

/-! ## The composed system -/

/-- Serving a `/db` request that carries the context `C`. -/
theorem serve_db (tr : Tracer) (rnd : Rand) (fuel : Nat) (name : List String) (q : Request)
    (C : SpanContext) (hq : q.path = "/db") (hC : tr.Extract q.header = .ok C) :
    serve tr rnd (fuel + 1) name q = some ⟨dbEvents C (rnd name), [], .returned⟩ := by
  simp [serve, mux, hq, dbHandler_extract_ok tr _ _ q C hC, link, linkTasks, dbEvents]

/-- Serving a `/service` or `/async` request when the codec writes the context of the new
span into headers `hd` and reads it back from them. -/
theorem serve_service (tr : Tracer) (rnd : Rand) (fuel : Nat) (name : List String)
    (q : Request) (hq : q.path = "/service" ∨ q.path = "/async") (hd : Header)
    (hi : tr.Inject (serviceSpan tr (rnd name).fresh q).context [] = .ok hd)
    (he : tr.Extract hd = .ok (serviceSpan tr (rnd name).fresh q).context) :
    serve tr rnd (fuel + 2) name q =
      some ⟨serviceEvents (serviceSpan tr (rnd name).fresh q) (rnd name) (rnd ("/db" :: name)) hd,
        [], .returned⟩ := by
  have hdb := serve_db tr rnd fuel ("/db" :: name) ⟨"GET", "/db", hd⟩ _ rfl he
  have hm : mux q.path = .service := by
    rcases hq with h | h <;> simp [mux, h]
  rw [serve]
  simp only [hm, serviceHandler, serviceBody_inject_ok tr _ _ q _ hd hi]
  simp [link, linkTasks, hdb, bodyOf, dbEvents, serviceEvents]
  rfl

/-- Serving a `/home` request with a codec that reads back what it writes: the serving
goroutine runs `homeHandler` with the `/service` invocation (and its `/db` invocation) in
place, and the one other goroutine runs the `/async` invocation (and its `/db` invocation). -/
theorem serve_home (tr : Tracer) (rnd : Rand) (fuel : Nat) (r : Request) (hd hd1 hd2 : Header)
    (root svc asy : Span) (hpath : r.path = "/home")
    (hroot : root = StartSpan "GET /home" [] (rnd []).fresh)
    (hsvc : svc = StartSpan "GET /service" [ChildOf root.context] (rnd ["/service"]).fresh)
    (hasy : asy = StartSpan "GET /async" [FollowsFrom root.context] (rnd ["/async"]).fresh)
    (hi : tr.Inject root.context [] = .ok hd) (he : tr.Extract hd = .ok root.context)
    (hi1 : tr.Inject svc.context [] = .ok hd1) (he1 : tr.Extract hd1 = .ok svc.context)
    (hi2 : tr.Inject asy.context [] = .ok hd2) (he2 : tr.Extract hd2 = .ok asy.context) :
    serve tr rnd (fuel + 3) [] r =
      some ⟨[.write "Request started", .startSpan root,
          .inject root.context ⟨"GET", "/async", []⟩, .go, .sleep (10 + (rnd []).draw2 % 100),
          .inject root.context ⟨"GET", "/service", []⟩, .send ⟨"GET", "/service", hd⟩] ++
          serviceEvents svc (rnd ["/service"]) (rnd ["/db", "/service"]) hd1 ++
          [.recv ⟨"GET", "/service", hd⟩ (.response ""), .write "... done!", .finish root],
        [[.sleep (50 + (rnd []).draw1 % 100), .send ⟨"GET", "/async", hd⟩] ++
          serviceEvents asy (rnd ["/async"]) (rnd ["/db", "/async"]) hd2 ++
          [.recv ⟨"GET", "/async", hd⟩ (.response "")]], .returned⟩ := by
  have hs1 : serviceSpan tr (rnd ["/service"]).fresh ⟨"GET", "/service", hd⟩ = svc := by
    simp [serviceSpan, he, hsvc]
  have hs2 : serviceSpan tr (rnd ["/async"]).fresh ⟨"GET", "/async", hd⟩ = asy := by
    simp [serviceSpan, he, hasy]
  have h1 := serve_service tr rnd fuel ["/service"] ⟨"GET", "/service", hd⟩ (Or.inl rfl) hd1
    (by rw [hs1]; exact hi1) (by rw [hs1]; exact he1)
  have h2 := serve_service tr rnd fuel ["/async"] ⟨"GET", "/async", hd⟩ (Or.inr rfl) hd2
    (by rw [hs2]; exact hi2) (by rw [hs2]; exact he2)
  rw [hs1] at h1
  rw [hs2] at h2
  rw [hroot] at hi
  rw [serve]
  simp only [mux, hpath, if_true]
  rw [homeHandler_inject_ok tr _ _ _ _ r hd hi]
  have hb : ∀ sp d dDb h, bodyOf (serviceEvents sp d dDb h) = "" := by
    intro sp d dDb h
    simp [bodyOf, serviceEvents, dbEvents]
    rfl
  simp [link, linkTasks, h1, h2, hb, asyncTask, sleepMilli, hroot]

/-- The unary numeral of `n` has length `n`. -/
theorem unary_length (n : Nat) : (unary n).length = n := by
  show (List.replicate n 'x').length = n
  simp

/-- The sample codec reads back what it writes into an empty carrier. -/
theorem unaryTracer_roundtrip (C : SpanContext) :
    ∃ hd, unaryTracer.Inject C [] = .ok hd ∧ unaryTracer.Extract hd = .ok C := by
  refine ⟨_, rfl, ?_⟩
  obtain ⟨t, sp, p, b⟩ := C
  cases p with
  | none =>
    show Except.ok (SpanContext.mk (unary t).length (unary sp).length
      (if "".length = 0 then none else some ("".length - 1)) (b ++ [])) = _
    simp [unary_length]
  | some p =>
    show Except.ok (SpanContext.mk (unary t).length (unary sp).length
      (if (unary (p + 1)).length = 0 then none else some ((unary (p + 1)).length - 1))
      (b ++ [])) = _
    simp [unary_length]

/-- C5: the four handlers composed over a transport that delivers every outbound request to
the handler registered for its path and never fails, with a codec whose extract returns the
injected context. One request to `/home` is served to the end with any fuel of at least 3,
no goroutine ends the process, and exactly five spans are reported: the root span
"GET /home" without references; one span "GET /service" that is ChildOf the root's
context; one span "GET /async" that FollowsFrom the root's context; two spans "GET /db",
one ChildOf the context of the `/service` span and one ChildOf the context of the `/async`
span; all five have the root's trace identifier. -/
theorem home_request_reports_five_spans (tr : Tracer) (rnd : Rand) (fuel : Nat) (r : Request)
    (hpath : r.path = "/home")
    (hcodec : ∀ C, ∃ hd, tr.Inject C [] = .ok hd ∧ tr.Extract hd = .ok C) :
    ∃ sys root svc asy db1 db2,
      serve tr rnd (fuel + 3) [] r = some sys ∧ sys.outcome = .returned ∧ exits sys = false ∧
      reported sys = [db1, svc, root, db2, asy] ∧
      root.operationName = "GET /home" ∧ root.references = [] ∧
      svc.operationName = "GET /service" ∧ svc.references = [ChildOf root.context] ∧
      asy.operationName = "GET /async" ∧ asy.references = [FollowsFrom root.context] ∧
      db1.operationName = "GET /db" ∧ db1.references = [ChildOf svc.context] ∧
      db2.operationName = "GET /db" ∧ db2.references = [ChildOf asy.context] ∧
      ∀ sp ∈ reported sys, sp.context.traceID = root.context.traceID := by
  obtain ⟨hd, hi, he⟩ := hcodec (StartSpan "GET /home" [] (rnd []).fresh).context
  obtain ⟨hd1, hi1, he1⟩ := hcodec (StartSpan "GET /service"
    [ChildOf (StartSpan "GET /home" [] (rnd []).fresh).context] (rnd ["/service"]).fresh).context
  obtain ⟨hd2, hi2, he2⟩ := hcodec (StartSpan "GET /async"
    [FollowsFrom (StartSpan "GET /home" [] (rnd []).fresh).context] (rnd ["/async"]).fresh).context
  have hsys := serve_home tr rnd fuel r hd hd1 hd2 _ _ _ hpath rfl rfl rfl hi he hi1 he1 hi2 he2
  refine ⟨_, _, _, _,
    StartSpan "GET /db" [ChildOf (StartSpan "GET /service"
      [ChildOf (StartSpan "GET /home" [] (rnd []).fresh).context]
        (rnd ["/service"]).fresh).context] (rnd ["/db", "/service"]).fresh,
    StartSpan "GET /db" [ChildOf (StartSpan "GET /async"
      [FollowsFrom (StartSpan "GET /home" [] (rnd []).fresh).context]
        (rnd ["/async"]).fresh).context] (rnd ["/db", "/async"]).fresh,
    hsys, rfl, ?_, ?_, rfl, rfl, rfl, rfl, rfl, rfl, rfl, rfl, rfl, rfl, ?_⟩
  · simp [exits, serviceEvents, dbEvents]
  · simp [reported, finished, serviceEvents, dbEvents]
  · simp [reported, finished, serviceEvents, dbEvents, StartSpan, ChildOf, FollowsFrom]

/-- Witness of C5: the sample codec, and draws that give every invocation its own
identifiers. -/
theorem home_request_reports_five_spans_witness :
    (Request.mk "GET" "/home" []).path = "/home" ∧
    (∀ C, ∃ hd, unaryTracer.Inject C [] = .ok hd ∧ unaryTracer.Extract hd = .ok C) ∧
    ∃ sys, serve unaryTracer (fun name => ⟨⟨10 + name.length,
        20 + name.length + if "/async" ∈ name then 10 else 0⟩, 3, 4⟩) (0 + 3) []
        ⟨"GET", "/home", []⟩ = some sys ∧
      reported sys =
        [⟨"GET /db", ⟨10, 22, some 21, []⟩, [ChildOf ⟨10, 21, some 20, []⟩]⟩,
          ⟨"GET /service", ⟨10, 21, some 20, []⟩, [ChildOf ⟨10, 20, none, []⟩]⟩,
          ⟨"GET /home", ⟨10, 20, none, []⟩, []⟩,
          ⟨"GET /db", ⟨10, 32, some 31, []⟩, [ChildOf ⟨10, 31, some 20, []⟩]⟩,
          ⟨"GET /async", ⟨10, 31, some 20, []⟩, [FollowsFrom ⟨10, 20, none, []⟩]⟩] := by
  refine ⟨rfl, unaryTracer_roundtrip, ?_⟩
  obtain ⟨sys, root, svc, asy, db1, db2, h1, _, _, _⟩ :=
    home_request_reports_five_spans unaryTracer
      (fun name => ⟨⟨10 + name.length,
        20 + name.length + if "/async" ∈ name then 10 else 0⟩, 3, 4⟩) 0 ⟨"GET", "/home", []⟩ rfl
      unaryTracer_roundtrip
  refine ⟨sys, h1, ?_⟩
  have h2 : (serve unaryTracer (fun name => ⟨⟨10 + name.length,
        20 + name.length + if "/async" ∈ name then 10 else 0⟩, 3, 4⟩)
      (0 + 3) [] ⟨"GET", "/home", []⟩).map reported = some
        [⟨"GET /db", ⟨10, 22, some 21, []⟩, [ChildOf ⟨10, 21, some 20, []⟩]⟩,
          ⟨"GET /service", ⟨10, 21, some 20, []⟩, [ChildOf ⟨10, 20, none, []⟩]⟩,
          ⟨"GET /home", ⟨10, 20, none, []⟩, []⟩,
          ⟨"GET /db", ⟨10, 32, some 31, []⟩, [ChildOf ⟨10, 31, some 20, []⟩]⟩,
          ⟨"GET /async", ⟨10, 31, some 20, []⟩, [FollowsFrom ⟨10, 20, none, []⟩]⟩] := by
    decide
  rw [h1] at h2
  exact Option.some_injective _ h2

/-- Witness of C10: with a working codec the goroutine dispatched by the go statement sends
the `/async` request, and the handler sends the `/service` request after the go statement. -/
theorem homeHandler_async_dispatched_first_witness :
    (homeHandler unaryTracer (fun _ => .response "") ⟨5, 2⟩ 0 0 ⟨"GET", "/home", []⟩).tasks.map
        sent =
      [[⟨"GET", "/async", [("trace-id", unary 5), ("span-id", unary 2), ("parent-id", "")]⟩]] ∧
    ∃ before after,
      (homeHandler unaryTracer (fun _ => .response "") ⟨5, 2⟩ 0 0 ⟨"GET", "/home", []⟩).events =
        before ++ .go :: after ∧
      Event.go ∉ before ∧ Event.go ∉ after ∧
      sent before = [] ∧
      sent after =
        [⟨"GET", "/service", [("trace-id", unary 5), ("span-id", unary 2), ("parent-id", "")]⟩] :=
  ⟨((homeHandler_async_dispatched_first unaryTracer (fun _ => .response "") ⟨5, 2⟩ 0 0
    ⟨"GET", "/home", []⟩).2.2.1 _ rfl).1,
   ((homeHandler_async_dispatched_first unaryTracer (fun _ => .response "") ⟨5, 2⟩ 0 0
    ⟨"GET", "/home", []⟩).2.2.1 _ rfl).2.1⟩

end TracingDemo
